import Mathlib

/-!
Shallow embedding of the stock-down repository's synchronization core
(`src/akshare_downloader.py`) and of the web front-end's code
normalization (`src/flask_app.py`).

Modelling conventions:
* SQLite TEXT values are Lean `String`s; SQLite's binary collation
  (used by `MAX` over a TEXT column) is modelled by a codepoint-wise
  lexicographic comparison on `String.data` (`str_lt_core`), which
  coincides with byte order on the ASCII dates this program stores.
* The three tables created by `init_db` (daily / weekly / minute), each
  with composite PRIMARY KEY (ts_code, date column), are lists of rows;
  the primary-key constraint is modelled inside `append_data`: pandas
  `DataFrame.to_sql(..., if_exists="append", method="multi")` issues a
  plain multi-row INSERT inside one transaction, so a key conflict
  (against the table or within the batch) raises IntegrityError and
  commits nothing.
* REAL columns hold no claim-relevant arithmetic; their values are
  carried as `Int` payloads so that equality of rows is decidable.
* `download_stock` is effectful Python (it mutates the database through
  `engine` and can raise).  It is embedded as a function from the store
  to (store after the call, trace of collaborator calls made, the
  exception escaping the call if any).  The trace records, in order,
  each watermark resolution (`get_last_date`), each upstream fetch with
  the start argument passed to it, and each completed `append_data`
  with the number of rows it wrote.  `time.sleep` pacing is real time
  and is not modelled; the `sleep_time` argument is kept for fidelity
  of the signature.
-/

/-- Codepoint-wise lexicographic strict order on character lists; models
SQLite's binary (memcmp) collation for the ASCII strings this program
stores. -/
def str_lt_core : List Char → List Char → Bool
  | [], [] => false
  | [], _ :: _ => true
  | _ :: _, [] => false
  | a :: as, b :: bs =>
    if a.toNat < b.toNat then true
    else if b.toNat < a.toNat then false
    else str_lt_core as bs

/-- Strict order on strings used for SQL MAX and for date-window filters. -/
def str_lt (a b : String) : Bool := str_lt_core a.data b.data

/-- Reflexive order on strings: `a ≤ b` iff `¬ b < a` (the order is total). -/
def str_le (a b : String) : Bool := !(str_lt b a)

/-- Binary maximum of two strings under `str_lt`; models how SQL `MAX`
combines TEXT values. -/
def smax (a b : String) : String := if str_lt a b then b else a

/-- Maximum of a list of strings, `none` on the empty list; models SQL
`MAX(col)` over a result set (NULL on an empty set). -/
def date_max : List String → Option String
  | [] => none
  | d :: ds =>
    match date_max ds with
    | none => some d
    | some m => some (smax d m)

/-- Series kinds: the three tables created by `init_db`
(`akshare_downloader.py` lines 46-83). -/
inductive Kind where
  | daily
  | weekly
  | minute
deriving DecidableEq, Repr

/-- Python exceptions that the modelled code can raise: an SQLite
primary-key violation surfacing from `DataFrame.to_sql`, a tenacity
`RetryError` escaping a fetch wrapper, or any other exception. -/
inductive PyExc where
  | integrityError
  | fetchExhausted (msg : String)
  | other (msg : String)
deriving DecidableEq, Repr

/-- One OHLCV record as returned by the upstream provider: the columns
of a fetched DataFrame row, before the `ts_code` column is inserted. -/
structure Bar where
  date : String
  open_ : Int
  high : Int
  low : Int
  close : Int
  volume : Int
  amount : Int
deriving DecidableEq, Repr

/-- One stored table row: the schema of the `daily` / `weekly` /
`minute` tables (`ts_code`, date column, OHLCV payload), with composite
primary key (`ts_code`, `date`). -/
structure Row where
  ts_code : String
  date : String
  open_ : Int
  high : Int
  low : Int
  close : Int
  volume : Int
  amount : Int
deriving DecidableEq, Repr

/-- The `df.insert(0, "ts_code", ts_code)` step of `append_data`:
tag a fetched bar with the entity identifier, producing a table row. -/
def mk_row (ts_code : String) (b : Bar) : Row :=
  { ts_code := ts_code, date := b.date, open_ := b.open_, high := b.high,
    low := b.low, close := b.close, volume := b.volume, amount := b.amount }

/-- Rows share a primary key iff they agree on (ts_code, date). -/
def same_key (r1 r2 : Row) : Bool :=
  r1.ts_code == r2.ts_code && r1.date == r2.date

/-- Does some row of the batch collide with a row already in the table? -/
def keys_conflict (t rows : List Row) : Bool :=
  rows.any (fun r => t.any (fun r2 => same_key r r2))

/-- Does the batch itself contain two rows with the same primary key? -/
def batch_dup : List Row → Bool
  | [] => false
  | r :: rest => rest.any (fun r2 => same_key r r2) || batch_dup rest

/-- The whole SQLite store: the three tables created by `init_db`. -/
structure DB where
  daily : List Row
  weekly : List Row
  minute : List Row
deriving DecidableEq, Repr

/-- The table a series kind lives in. -/
def kind_table (db : DB) : Kind → List Row
  | .daily => db.daily
  | .weekly => db.weekly
  | .minute => db.minute

/-- Embedding of `get_last_date` (`akshare_downloader.py` lines 86-91):
`SELECT MAX(date_col) FROM table WHERE ts_code=?`, then
`result[0] if result and result[0] else None` — so both SQL NULL (no
matching rows) and a falsy empty-string maximum become `None`. -/
def get_last_date (t : List Row) (ts_code : String) : Option String :=
  match date_max ((t.filter (fun r => r.ts_code == ts_code)).map (fun r => r.date)) with
  | none => none
  | some m => if m = "" then none else some m

/-- The per-kind start-date computation of `download_stock`
(lines 117-118, 123-124, 129-130): `sd = last if last else start`. -/
def effective_start (t : List Row) (ts_code start : String) : String :=
  match get_last_date t ts_code with
  | some d => d
  | none => start

/-- Embedding of `append_data` (`akshare_downloader.py` lines 109-113).
Empty DataFrame: immediate return, nothing written.  Otherwise the rows
are tagged with `ts_code` and inserted by a single multi-row INSERT
(`to_sql(..., if_exists="append", method="multi")`): a primary-key
conflict raises IntegrityError and the transaction commits nothing.
Returns the table after the call and the number of rows written. -/
def append_data (t : List Row) (df : List Bar) (ts_code : String) :
    Except PyExc (List Row × Nat) :=
  if df.isEmpty then .ok (t, 0)
  else
    let rows := df.map (mk_row ts_code)
    if keys_conflict t rows || batch_dup rows then .error .integrityError
    else .ok (t ++ rows, rows.length)

/-- A post-retry fetch function: `fetch_daily` / `fetch_weekly` /
`fetch_minute` as seen by `download_stock` — takes (code, start, end)
and either returns the fetched bars or raises. -/
def Fetcher : Type := String → String → String → Except PyExc (List Bar)

/-- Observable collaborator calls made by `download_stock`, in program
order: a watermark resolution (with the effective start it produced),
an upstream fetch (with the start argument passed to it), and a
completed `append_data` (with the number of rows written, 0 for an
empty DataFrame). -/
inductive Ev where
  | resolved (k : Kind) (effStart : String)
  | fetched (k : Kind) (startArg : String)
  | wrote (k : Kind) (rows : Nat)
deriving DecidableEq, Repr

/-- Embedding of `download_stock` (`akshare_downloader.py` lines
116-133): for daily, then weekly, then minute — resolve the watermark,
fetch from the effective start, append the result.  There is no
per-kind exception handling in the source, so the first exception
escapes the function; table changes made before it persist (the
store is mutated in place through `engine`). -/
def download_stock (fd fw fm : Fetcher) (code start end_ : String)
    (sleep_time : Nat) (db : DB) : DB × List Ev × Option PyExc :=
  let _ := sleep_time
  let sd := effective_start db.daily code start
  match fd code sd end_ with
  | .error e => (db, [.resolved .daily sd, .fetched .daily sd], some e)
  | .ok df_daily =>
    match append_data db.daily df_daily code with
    | .error e => (db, [.resolved .daily sd, .fetched .daily sd], some e)
    | .ok (daily1, n1) =>
      let db1 : DB := { db with daily := daily1 }
      let evs1 := [Ev.resolved .daily sd, Ev.fetched .daily sd, Ev.wrote .daily n1]
      let sw := effective_start db1.weekly code start
      match fw code sw end_ with
      | .error e => (db1, evs1 ++ [.resolved .weekly sw, .fetched .weekly sw], some e)
      | .ok df_weekly =>
        match append_data db1.weekly df_weekly code with
        | .error e => (db1, evs1 ++ [.resolved .weekly sw, .fetched .weekly sw], some e)
        | .ok (weekly1, n2) =>
          let db2 : DB := { db1 with weekly := weekly1 }
          let evs2 := evs1 ++
            [Ev.resolved .weekly sw, Ev.fetched .weekly sw, Ev.wrote .weekly n2]
          let sm := effective_start db2.minute code start
          match fm code sm end_ with
          | .error e =>
            (db2, evs2 ++ [.resolved .minute sm, .fetched .minute sm], some e)
          | .ok df_min =>
            match append_data db2.minute df_min code with
            | .error e =>
              (db2, evs2 ++ [.resolved .minute sm, .fetched .minute sm], some e)
            | .ok (minute1, n3) =>
              ({ db2 with minute := minute1 },
               evs2 ++ [.resolved .minute sm, .fetched .minute sm,
                        .wrote .minute n3],
               none)

/-- Outcome of a tenacity-retried call: either an attempt succeeded
(recording which attempt, the waits slept before each re-attempt, and
the returned value) or all attempts failed (a `RetryError` carrying the
last underlying error is raised after the recorded attempts/waits). -/
inductive RetryOutcome (ε α : Type) where
  | ok (attempts : Nat) (waits : List Nat) (val : α)
  | exhausted (attempts : Nat) (waits : List Nat) (last : ε)
deriving DecidableEq, Repr

/-- Core loop of tenacity's `@retry(wait=wait_fixed(w),
stop=stop_after_attempt(maxAttempts))`: run the call for attempt
number `attempt`; on success return its value; on failure, if further
attempts remain, sleep `w` and retry, otherwise raise carrying the last
error.  `remaining` is the number of attempts still allowed after the
current one (so `stop_after_attempt(3)` starts with `remaining = 2`).
The stub `call` maps an attempt number (1-based) to that attempt's
outcome. -/
def retry_loop (call : Nat → Except ε α) (w : Nat) (attempt : Nat)
    (waits : List Nat) : Nat → RetryOutcome ε α
  | 0 =>
    match call attempt with
    | .ok v => .ok attempt waits v
    | .error e => .exhausted attempt waits e
  | r + 1 =>
    match call attempt with
    | .ok v => .ok attempt waits v
    | .error e =>
      let _ := e
      retry_loop call w (attempt + 1) (waits ++ [w]) r

/-- The decorator applied to `fetch_daily` / `fetch_weekly` /
`fetch_minute` (`akshare_downloader.py` lines 94-106):
`@retry(wait=wait_fixed(2), stop=stop_after_attempt(3))` — up to 3
attempts, a fixed 2-unit wait between consecutive attempts. -/
def retry_call (call : Nat → Except ε α) : RetryOutcome ε α :=
  retry_loop call 2 1 [] 2

/-- Embedding of the `task` closure (`akshare_downloader.py` lines
145-152): run `download_stock` for one code; any exception is caught,
printed, and recorded as that entity's failure; the progress bar is
updated in all cases.  Returns the store after the task and whether the
entity succeeded. -/
def task (fd fw fm : Fetcher) (start end_ : String) (sleep_time : Nat)
    (db : DB) (code : String) : DB × Bool :=
  match download_stock fd fw fm code start end_ sleep_time db with
  | (db', _, none) => (db', true)
  | (db', _, some _) => (db', false)

/-- Embedding of the pool drain in `main` (`akshare_downloader.py`
lines 154-157): every submitted code is processed by `task`; the shared
store threads through the tasks.  Collects the per-entity outcome
report in submission order. -/
def run_pool (fd fw fm : Fetcher) (start end_ : String) (sleep_time : Nat)
    (db : DB) (codes : List String) : DB × List (String × Bool) :=
  codes.foldl
    (fun acc code =>
      let r := task fd fw fm start end_ sleep_time acc.1 code
      (r.1, acc.2 ++ [(code, r.2)]))
    (db, [])

/-- The thread-count cap (`akshare_downloader.py` line 32). -/
def MAX_THREADS : Int := 300

/-- The clamp in `main` (line 138):
`thread_count = max(1, min(MAX_THREADS, args.threads))`. -/
def thread_count (threads : Int) : Int :=
  max 1 (min MAX_THREADS threads)

/-- Embedding of `main` after argument parsing (lines 136-158): clamp
the thread count, initialize the store, drain the pool, close the
progress bar, and fall off the end of the function — so the process
exit status is 0 whatever the per-entity outcomes were.  Returns
(exit code, final store, per-entity report). -/
def main_run (fd fw fm : Fetcher) (start end_ : String) (sleep_time : Nat)
    (threads : Int) (db : DB) (codes : List String) :
    Nat × DB × List (String × Bool) :=
  let _ := thread_count threads
  let r := run_pool fd fw fm start end_ sleep_time db codes
  (0, r.1, r.2)

/-- Python `str.strip()` with no argument: remove leading and trailing
whitespace characters.  Which characters count as whitespace is decided
by the Python runtime's Unicode database (it includes, e.g., `\x0b`,
`\x0c` and the Unicode space characters) — that table is external to
this repository, so it is taken as the parameter `ws`; the structural
behaviour (drop the longest whitespace run at each end) is exact. -/
def py_strip (ws : Char → Bool) (s : String) : String :=
  String.mk (((s.data.dropWhile ws).reverse.dropWhile ws).reverse)

/-- Python `str.isdigit()`: true iff the string is nonempty and every
character is a digit.  Which characters count as digits is decided by
the Python runtime's Unicode database (ASCII 0-9 but also, e.g.,
full-width and superscript digits) — that table is external to this
repository, so it is taken as the parameter `digit`; the structural
behaviour (nonempty and all characters digits) is exact. -/
def py_isdigit (digit : Char → Bool) (s : String) : Bool :=
  !s.data.isEmpty && s.data.all digit

/-- Python `str.zfill(w)`: left-pad with '0' to width `w`, keeping a
leading sign character in front of the padding. -/
def zfill (w : Nat) (s : String) : String :=
  if w ≤ s.length then s
  else
    match s.data with
    | c :: rest =>
      if c = '+' ∨ c = '-' then
        String.mk (c :: (List.replicate (w - s.length) '0' ++ rest))
      else String.mk (List.replicate (w - s.length) '0' ++ s.data)
    | [] => String.mk (List.replicate w '0')

/-- Python `str.startswith("6")`: the first character is '6'. -/
def starts_with_six (s : String) : Bool :=
  match s.data with
  | c :: _ => c == '6'
  | [] => false

/-- Embedding of `adapt_code` (`flask_app.py` lines 28-33): strip the
input; return "" unless it is all digits; otherwise zero-pad to 6 and
prefix "sh" when the unpadded digits start with '6', else "sz".
The runtime's digit and whitespace tables are passed as parameters
(see `py_isdigit` and `py_strip`); the `startswith("6")` test and the
'0' padding compare exact characters and need no table. -/
def adapt_code (digit ws : Char → Bool) (code : String) : String :=
  let c := py_strip ws code
  if !py_isdigit digit c then ""
  else (if starts_with_six c then "sh" else "sz") ++ zfill 6 c

/-- The symbols the `/download` route hands to `download_stock`
(`flask_app.py` lines 63-74): each code is normalized by `adapt_code`
and skipped (`continue`) when the normalization is falsy (empty). -/
def download_symbols (digit ws : Char → Bool) (codes : List String) :
    List String :=
  (codes.map (adapt_code digit ws)).filter (fun s => !(s == ""))

/-- The ASCII fragment of Python's digit table: agrees with
`str.isdigit` on every ASCII character (used to evaluate witnesses on
ASCII inputs). -/
def ascii_digit (c : Char) : Bool := c.isDigit

/-- The ASCII fragment of Python's whitespace table: agrees with
`str.strip` on the witness inputs below. -/
def ascii_ws (c : Char) : Bool := c.isWhitespace

/-! Concrete fixtures used by counterexamples and witnesses. -/

/-- A concrete daily bar as the upstream provider would return it. -/
def bar0 : Bar :=
  { date := "20220104", open_ := 16, high := 17, low := 15, close := 16,
    volume := 1000, amount := 16000 }

/-- The same primary key as `bar0` with different OHLCV values. -/
def bar0' : Bar := { bar0 with close := 99 }

/-- The stored row obtained by tagging `bar0` with a code. -/
def row0 : Row := mk_row "sz000001" bar0

/-- A one-bar upstream dataset. -/
def upstream_bars : List Bar := [bar0]

/-- A well-behaved upstream fetch over a fixed dataset with inclusive
date filtering (the provider's start/end parameters are inclusive). -/
def incl_fetch (data : List Bar) : Fetcher := fun _code s e =>
  .ok (data.filter (fun b => str_le s b.date && str_le b.date e))

/-- A fetcher over the one-bar dataset. -/
def f1 : Fetcher := incl_fetch upstream_bars

/-- A fetcher whose retries are always exhausted. -/
def fw_fail : Fetcher := fun _ _ _ => .error (.fetchExhausted "boom")

/-- The store right after `init_db` on a fresh file: three empty tables. -/
def db0 : DB := { daily := [], weekly := [], minute := [] }

/-! Order lemmas for the string comparison backing SQL `MAX`. -/

theorem str_lt_core_irrefl (l : List Char) : str_lt_core l l = false := by
  induction l with
  | nil => rfl
  | cons a as ih => simp [str_lt_core, ih]

theorem str_lt_core_asymm (a b : List Char) (h : str_lt_core a b = true) :
    str_lt_core b a = false := by
  induction a generalizing b with
  | nil =>
    cases b with
    | nil => simp [str_lt_core] at h
    | cons c cs => simp [str_lt_core]
  | cons x xs ih =>
    cases b with
    | nil => simp [str_lt_core] at h
    | cons y ys =>
      simp only [str_lt_core] at h ⊢
      by_cases h1 : x.toNat < y.toNat
      · simp only [h1, if_true] at h ⊢
        have h2 : ¬ y.toNat < x.toNat := by omega
        simp [h2, h1]
      · by_cases h2 : y.toNat < x.toNat
        · simp [h1, h2] at h
        · simp only [h1, h2, if_false] at h ⊢
          exact ih ys h

theorem str_lt_core_conn (a b : List Char) (hab : str_lt_core a b = false)
    (hba : str_lt_core b a = false) : a = b := by
  induction a generalizing b with
  | nil =>
    cases b with
    | nil => rfl
    | cons c cs => simp [str_lt_core] at hab
  | cons x xs ih =>
    cases b with
    | nil => simp [str_lt_core] at hba
    | cons y ys =>
      simp only [str_lt_core] at hab hba
      by_cases h1 : x.toNat < y.toNat
      · simp [h1] at hab
      · by_cases h2 : y.toNat < x.toNat
        · simp [h1, h2] at hba
        · simp only [h1, h2, if_false] at hab hba
          have htn : x.toNat = y.toNat := by omega
          have hxy : x = y :=
            Char.eq_of_val_eq (UInt32.eq_of_val_eq (Fin.eq_of_val_eq htn))
          rw [hxy, ih ys hab hba]

theorem str_lt_core_trans (a b c : List Char) (h1 : str_lt_core a b = true)
    (h2 : str_lt_core b c = true) : str_lt_core a c = true := by
  induction a generalizing b c with
  | nil =>
    cases c with
    | nil =>
      cases b with
      | nil => simp [str_lt_core] at h1
      | cons y ys => simp [str_lt_core] at h2
    | cons z zs => simp [str_lt_core]
  | cons x xs ih =>
    cases b with
    | nil => simp [str_lt_core] at h1
    | cons y ys =>
      cases c with
      | nil => simp [str_lt_core] at h2
      | cons z zs =>
        simp only [str_lt_core] at h1 h2 ⊢
        by_cases hxy : x.toNat < y.toNat
        · by_cases hyz : y.toNat < z.toNat
          · have : x.toNat < z.toNat := by omega
            simp [this]
          · by_cases hzy : z.toNat < y.toNat
            · simp [hyz, hzy] at h2
            · have hyz' : y.toNat = z.toNat := by omega
              have : x.toNat < z.toNat := by omega
              simp [this]
        · by_cases hyx : y.toNat < x.toNat
          · simp [hxy, hyx] at h1
          · have hxy' : x.toNat = y.toNat := by omega
            by_cases hyz : y.toNat < z.toNat
            · have : x.toNat < z.toNat := by omega
              simp [this]
            · by_cases hzy : z.toNat < y.toNat
              · simp [hyz, hzy] at h2
              · simp only [hxy, hyx, if_false] at h1
                simp only [hyz, hzy, if_false] at h2
                have hnxz : ¬ x.toNat < z.toNat := by omega
                have hnzx : ¬ z.toNat < x.toNat := by omega
                simp only [hnxz, hnzx, if_false]
                exact ih ys zs h1 h2

theorem str_le_refl (a : String) : str_le a a = true := by
  simp [str_le, str_lt, str_lt_core_irrefl]

theorem str_le_trans (a b c : String) (h1 : str_le a b = true)
    (h2 : str_le b c = true) : str_le a c = true := by
  simp only [str_le, str_lt, Bool.not_eq_true'] at h1 h2 ⊢
  cases hca : str_lt_core c.data a.data with
  | false => rfl
  | true =>
    cases hab : str_lt_core a.data b.data with
    | true =>
      have hcb := str_lt_core_trans _ _ _ hca hab
      rw [hcb] at h2
      exact absurd h2 (by decide)
    | false =>
      have hd : a.data = b.data := str_lt_core_conn _ _ hab h1
      rw [← hd, hca] at h2
      exact absurd h2 (by decide)

theorem smax_eq_or (a b : String) : smax a b = a ∨ smax a b = b := by
  unfold smax
  by_cases h : str_lt a b = true
  · right; simp [h]
  · left; simp [h]

theorem str_le_smax_left (a b : String) : str_le a (smax a b) = true := by
  unfold smax
  cases h : str_lt a b with
  | true =>
    simp only [if_true]
    have := str_lt_core_asymm _ _ h
    simp [str_le, str_lt, this]
  | false => simp [str_le_refl]

theorem str_le_smax_right (a b : String) : str_le b (smax a b) = true := by
  unfold smax
  cases h : str_lt a b with
  | true => simp [str_le_refl]
  | false => simp [str_le, h]

theorem date_max_eq_none (l : List String) (h : date_max l = none) : l = [] := by
  cases l with
  | nil => rfl
  | cons d ds =>
    simp only [date_max] at h
    cases hds : date_max ds with
    | none => rw [hds] at h; simp at h
    | some m => rw [hds] at h; simp at h

theorem date_max_mem (l : List String) (m : String) (h : date_max l = some m) :
    m ∈ l := by
  induction l generalizing m with
  | nil => simp [date_max] at h
  | cons d ds ih =>
    simp only [date_max] at h
    cases hds : date_max ds with
    | none =>
      rw [hds] at h
      simp at h
      simp [h]
    | some m' =>
      rw [hds] at h
      simp at h
      rcases smax_eq_or d m' with he | he
      · rw [he] at h; simp [← h]
      · rw [he] at h
        right
        rw [← h]
        exact ih m' hds

theorem date_max_ub (l : List String) (m : String) (h : date_max l = some m) :
    ∀ x ∈ l, str_le x m = true := by
  induction l generalizing m with
  | nil => simp [date_max] at h
  | cons d ds ih =>
    intro x hx
    simp only [date_max] at h
    cases hds : date_max ds with
    | none =>
      rw [hds] at h
      simp at h
      have := date_max_eq_none ds hds
      subst this
      simp at hx
      rw [hx, ← h]
      exact str_le_refl d
    | some m' =>
      rw [hds] at h
      simp at h
      rcases List.mem_cons.mp hx with hx' | hx'
      · rw [hx', ← h]
        exact str_le_smax_left d m'
      · have h1 := ih m' hds x hx'
        have h2 : str_le m' (smax d m') = true := str_le_smax_right d m'
        rw [← h]
        exact str_le_trans _ _ _ h1 h2

theorem date_max_isSome (l : List String) (h : l ≠ []) :
    ∃ m, date_max l = some m := by
  cases l with
  | nil => exact absurd rfl h
  | cons d ds =>
    simp only [date_max]
    cases date_max ds with
    | none => exact ⟨d, rfl⟩
    | some m' => exact ⟨smax d m', rfl⟩

theorem str_le_empty (x : String) (h : str_le x "" = true) : x = "" := by
  cases hx : x.data with
  | nil =>
    cases x with
    | mk d => simp_all
  | cons c cs =>
    simp only [str_le, str_lt, hx] at h
    have : str_lt_core ("" : String).data (c :: cs) = true := rfl
    rw [this] at h
    simp at h

/-- When `get_last_date` answers `some T`, `T` really is the maximum
stored timestamp of that entity: it is the date of some stored row of
the entity, and it dominates every stored row of the entity. -/
theorem get_last_date_spec (t : List Row) (code T : String)
    (h : get_last_date t code = some T) :
    (∃ r ∈ t, r.ts_code = code ∧ r.date = T) ∧
      ∀ r ∈ t, r.ts_code = code → str_le r.date T = true := by
  unfold get_last_date at h
  cases hmx : date_max ((t.filter (fun r => r.ts_code == code)).map (fun r => r.date)) with
  | none => rw [hmx] at h; simp at h
  | some m =>
    rw [hmx] at h
    by_cases hm : m = ""
    · simp [hm] at h
    · simp only [hm, if_false] at h
      have hTm : m = T := by simpa using h
      subst hTm
      constructor
      · have hmem := date_max_mem _ _ hmx
        simp only [List.mem_map, List.mem_filter] at hmem
        rcases hmem with ⟨r, ⟨hrt, hrc⟩, hrd⟩
        exact ⟨r, hrt, by simpa using hrc, hrd⟩
      · intro r hr hrc
        apply date_max_ub _ _ hmx
        simp only [List.mem_map, List.mem_filter]
        exact ⟨r, ⟨hr, by simp [hrc]⟩, rfl⟩

/-- When the entity has at least one stored row with a nonempty (hence
truthy) timestamp, `get_last_date` answers `some`. -/
theorem get_last_date_isSome (t : List Row) (code : String)
    (h : ∃ r ∈ t, r.ts_code = code ∧ r.date ≠ "") :
    ∃ T, get_last_date t code = some T := by
  rcases h with ⟨r, hr, hrc, hrd⟩
  have hmem : r.date ∈ (t.filter (fun r => r.ts_code == code)).map (fun r => r.date) := by
    simp only [List.mem_map, List.mem_filter]
    exact ⟨r, ⟨hr, by simp [hrc]⟩, rfl⟩
  have hne : (t.filter (fun r => r.ts_code == code)).map (fun r => r.date) ≠ [] := by
    intro hnil
    rw [hnil] at hmem
    simp at hmem
  rcases date_max_isSome _ hne with ⟨m, hm⟩
  refine ⟨m, ?_⟩
  unfold get_last_date
  rw [hm]
  have hub := date_max_ub _ _ hm r.date hmem
  have hmne : m ≠ "" := by
    intro hm0
    rw [hm0] at hub
    exact hrd (str_le_empty _ hub)
  simp [hmne]

/-- C1: the spec claims upsert semantics — a batch row whose
(entity identifier, timestamp) key is already stored should overwrite
rather than duplicate or abort.  The code evaluated at such an input:
`append_data` issues a plain INSERT (`if_exists="append"`), so the
primary-key conflict raises IntegrityError and the write aborts instead
of overwriting the stored row's values. -/
theorem C1_conflicting_key_aborts :
    append_data [row0] [bar0'] "sz000001" = .error .integrityError := rfl

/-- C2: the spec claims `download_stock` is idempotent — the code
evaluated at the failing input: the first run over a one-bar upstream
succeeds, but the second run with identical arguments resumes from the
stored watermark, re-fetches the watermark bar (provider dates are
inclusive), and the plain INSERT then raises IntegrityError, so the
second run fails instead of being a no-op. -/
theorem C2_second_run_raises :
    (download_stock f1 f1 f1 "sz000001" "20220101" "20220110" 0 db0).2.2 = none ∧
    (download_stock f1 f1 f1 "sz000001" "20220101" "20220110" 0
        (download_stock f1 f1 f1 "sz000001" "20220101" "20220110" 0 db0).1).2.2 =
      some .integrityError := by
  exact ⟨rfl, rfl⟩

/-- C5: the tenacity wrapper around each fetch returns the first
success within its 3 attempts; when every attempt fails it makes
exactly 3 attempts (not more, not fewer), sleeping the fixed wait of 2
between consecutive attempts, and then propagates exhaustion carrying
the last underlying error. -/
theorem C5_retry_bound {ε α : Type} (call : Nat → Except ε α)
    (e1 e2 e3 : ε) (v : α) :
    (call 1 = .ok v → retry_call call = .ok 1 [] v) ∧
    (call 1 = .error e1 → call 2 = .ok v → retry_call call = .ok 2 [2] v) ∧
    (call 1 = .error e1 → call 2 = .error e2 → call 3 = .ok v →
      retry_call call = .ok 3 [2, 2] v) ∧
    (call 1 = .error e1 → call 2 = .error e2 → call 3 = .error e3 →
      retry_call call = .exhausted 3 [2, 2] e3) := by
  refine ⟨?_, ?_, ?_, ?_⟩
  · intro h1
    simp [retry_call, retry_loop, h1]
  · intro h1 h2
    simp [retry_call, retry_loop, h1, h2]
  · intro h1 h2 h3
    simp [retry_call, retry_loop, h1, h2, h3]
  · intro h1 h2 h3
    simp [retry_call, retry_loop, h1, h2, h3]

/-- An upstream stub that fails on its first 2 attempts and succeeds on
the 3rd. -/
def stub_fail_twice : Nat → Except String Nat :=
  fun n => if n < 3 then .error "transient" else .ok 42

/-- An upstream stub that fails on every attempt. -/
def stub_always_fail : Nat → Except String Nat :=
  fun _ => .error "down"

/-- Witness for C5: the two spec scenarios at concrete stubs. -/
theorem C5_retry_bound_witness :
    retry_call stub_fail_twice = .ok 3 [2, 2] 42 ∧
    retry_call stub_always_fail = .exhausted 3 [2, 2] "down" :=
  ⟨(C5_retry_bound stub_fail_twice "transient" "transient" "transient" 42).2.2.1
      rfl rfl rfl,
   (C5_retry_bound stub_always_fail "down" "down" "down" 42).2.2.2 rfl rfl rfl⟩

/-- C6: an empty upstream result set causes no storage write for that
kind — the stored table is unchanged, zero rows are reported written,
and no error is raised. -/
theorem C6_empty_result_no_op (t : List Row) (code : String) :
    append_data t [] code = .ok (t, 0) := rfl

/-- C9: the worker pool size actually used is the requested thread
count clamped into 1..300: below-range requests yield 1, above-range
requests yield 300, in-range requests are used unchanged, and the
result is always within bounds. -/
theorem C9_thread_count_clamped (t : Int) :
    (t < 1 → thread_count t = 1) ∧ (300 < t → thread_count t = 300) ∧
    (1 ≤ t → t ≤ 300 → thread_count t = t) ∧
    1 ≤ thread_count t ∧ thread_count t ≤ 300 := by
  unfold thread_count MAX_THREADS
  refine ⟨?_, ?_, ?_, ?_, ?_⟩ <;> intros <;> omega

/-- Witness for C9 at the concrete thread counts 0, 500 and 37. -/
theorem C9_thread_count_clamped_witness :
    thread_count 0 = 1 ∧ thread_count 500 = 300 ∧ thread_count 37 = 37 :=
  ⟨(C9_thread_count_clamped 0).1 (by decide),
   (C9_thread_count_clamped 500).2.1 (by decide),
   (C9_thread_count_clamped 37).2.2.1 (by decide) (by decide)⟩

/-- C10: whatever digit and whitespace tables the Python runtime uses,
`adapt_code` returns "" whenever the stripped input contains a
non-digit character; on an all-digit stripped input it returns the
digits zero-padded to 6, prefixed "sh" when the unpadded digits start
with '6' and "sz" otherwise; and every symbol the download route hands
to the synchronization core has a non-empty normalization.  Holding
for every table, the statement holds in particular for the actual
Unicode digit and whitespace classes of `str.isdigit` / `str.strip`. -/
theorem C10_adapt_code_normalization (digit ws : Char → Bool) (s : String)
    (codes : List String) (y : String) :
    ((py_strip ws s).data.any (fun c => !(digit c)) = true →
      adapt_code digit ws s = "") ∧
    (py_isdigit digit (py_strip ws s) = true →
      adapt_code digit ws s =
        (if starts_with_six (py_strip ws s) then "sh" else "sz") ++
          zfill 6 (py_strip ws s)) ∧
    (y ∈ download_symbols digit ws codes → y ≠ "") := by
  refine ⟨?_, ?_, ?_⟩
  · intro h
    have hpd : py_isdigit digit (py_strip ws s) = false := by
      unfold py_isdigit
      rcases List.any_eq_true.mp h with ⟨c, hc, hnd⟩
      cases hall : (py_strip ws s).data.all digit with
      | false => simp [hall]
      | true =>
        rw [List.all_eq_true] at hall
        have hcd := hall c hc
        simp [hcd] at hnd
    simp [adapt_code, hpd]
  · intro h
    simp [adapt_code, h]
  · intro hy
    unfold download_symbols at hy
    have hne := (List.mem_filter.mp hy).2
    simpa using hne

/-- Witness for C10, at the ASCII fragments of the runtime tables
(which agree with Python's on these inputs): a non-digit input maps to
"", an all-digit input starting with '6' maps to its "sh"-prefixed
padded form, and a symbol produced by the route's filter is
non-empty. -/
theorem C10_adapt_code_normalization_witness :
    adapt_code ascii_digit ascii_ws " 12a " = "" ∧
    adapt_code ascii_digit ascii_ws " 600519 " = "sh600519" ∧
    ("sz000001" : String) ≠ "" := by
  refine ⟨?_, ?_, ?_⟩
  · exact (C10_adapt_code_normalization ascii_digit ascii_ws " 12a " [] "x").1
      (by decide)
  · have h := (C10_adapt_code_normalization ascii_digit ascii_ws " 600519 "
      [] "x").2.1 (by decide)
    rw [h]; decide
  · exact (C10_adapt_code_normalization ascii_digit ascii_ws "z" ["1"]
      "sz000001").2.2 (by decide)

/-- The per-entity outcome report of the pool drain lists exactly the
submitted codes, in submission order, whatever the initial accumulator
holds. -/
theorem run_pool_report_fst (fd fw fm : Fetcher) (start end_ : String)
    (st : Nat) :
    ∀ (codes : List String) (db : DB) (acc : List (String × Bool)),
      ((codes.foldl
        (fun acc code =>
          let r := task fd fw fm start end_ st acc.1 code
          (r.1, acc.2 ++ [(code, r.2)]))
        (db, acc)).2).map Prod.fst = acc.map Prod.fst ++ codes := by
  intro codes
  induction codes with
  | nil => intro db acc; simp
  | cons c cs ih =>
    intro db acc
    simp only [List.foldl_cons]
    rw [ih]
    simp

/-- C7: a per-entity exception is caught at the task boundary and
recorded as that entity's failed outcome; the pool still processes and
reports every submitted entity, and the run finishes with exit code 0
however many entities failed. -/
theorem C7_failures_caught_run_completes (fd fw fm : Fetcher)
    (start end_ : String) (st : Nat) (threads : Int) (db : DB)
    (codes : List String) :
    (main_run fd fw fm start end_ st threads db codes).1 = 0 ∧
    ((main_run fd fw fm start end_ st threads db codes).2.2).map Prod.fst
      = codes ∧
    ∀ (code : String) (db' : DB) (evs : List Ev) (e : PyExc),
      download_stock fd fw fm code start end_ st db = (db', evs, some e) →
      task fd fw fm start end_ st db code = (db', false) := by
  refine ⟨rfl, ?_, ?_⟩
  · have h := run_pool_report_fst fd fw fm start end_ st codes db []
    simpa [main_run, run_pool] using h
  · intro code db' evs e hds
    unfold task
    rw [hds]

/-- Witness for C7: a concrete entity whose daily fetch is exhausted is
caught at the task boundary and recorded as a failure. -/
theorem C7_failures_caught_run_completes_witness :
    task fw_fail fw_fail fw_fail "20220101" "20220110" 0 db0 "sz000001" =
      (db0, false) :=
  (C7_failures_caught_run_completes fw_fail fw_fail fw_fail "20220101"
      "20220110" 0 4 db0 ["sz000001"]).2.2 "sz000001" db0
    [.resolved .daily "20220101", .fetched .daily "20220101"]
    (.fetchExhausted "boom") rfl

/-- C3 fails on the code: with an entity whose Weekly fetch always
raises (and an upstream that has daily/minute data), `download_stock`
leaves the minute table untouched even though the daily kind was
synchronized — the Minute kind is never attempted, contradicting the
claim that Daily and Minute are still synchronized. -/
theorem C3_counterexample :
    (download_stock f1 fw_fail f1 "sz000001" "20220101" "20220110" 0
        db0).1.daily ≠ [] ∧
    (download_stock f1 fw_fail f1 "sz000001" "20220101" "20220110" 0
        db0).1.minute = [] := by
  refine ⟨?_, rfl⟩
  decide

/-- C3 (amended): a fetch failure on one kind is caught only at the
entity's task boundary, not per kind: rows written for earlier kinds of
that entity persist, but the remaining kinds are not attempted (their
tables are untouched) and the exception escapes `download_stock`;
other entities in the same run are unaffected because each task
catches its own exception. -/
theorem C3_weekly_failure_skips_minute (fd fw fm : Fetcher)
    (code start end_ : String) (st : Nat) (db : DB) (e0 : PyExc)
    (hw : ∀ s, fw code s end_ = .error e0) :
    (download_stock fd fw fm code start end_ st db).1.weekly = db.weekly ∧
    (download_stock fd fw fm code start end_ st db).1.minute = db.minute ∧
    (download_stock fd fw fm code start end_ st db).2.2.isSome = true := by
  simp only [download_stock]
  cases hfd : fd code (effective_start db.daily code start) end_ with
  | error e => simp
  | ok df_daily =>
    dsimp only
    cases had : append_data db.daily df_daily code with
    | error e => simp
    | ok p =>
      obtain ⟨daily1, n1⟩ := p
      dsimp only
      rw [hw]
      simp

/-- A weekly fetcher that always has its retries exhausted for the
entity "sz000001" while behaving normally for every other entity. -/
def fw_fail_A : Fetcher := fun code s e =>
  if code == "sz000001" then .error (.fetchExhausted "boom")
  else incl_fetch upstream_bars code s e

/-- Witness for C3 (amended): entity A's always-failing Weekly fetch
leaves A's weekly and minute tables untouched and escapes as an
exception, while entity B in the same pool run fully succeeds. -/
theorem C3_weekly_failure_skips_minute_witness :
    ((download_stock f1 fw_fail_A f1 "sz000001" "20220101" "20220110" 0
          db0).1.weekly = db0.weekly ∧
      (download_stock f1 fw_fail_A f1 "sz000001" "20220101" "20220110" 0
          db0).1.minute = db0.minute ∧
      (download_stock f1 fw_fail_A f1 "sz000001" "20220101" "20220110" 0
          db0).2.2.isSome = true) ∧
    (run_pool f1 fw_fail_A f1 "20220101" "20220110" 0 db0
        ["sz000001", "sz000002"]).2 =
      [("sz000001", false), ("sz000002", true)] := by
  constructor
  · exact C3_weekly_failure_skips_minute f1 fw_fail_A f1 "sz000001" "20220101"
      "20220110" 0 db0 (.fetchExhausted "boom") (fun _ => rfl)
  · decide
/-- C4: every upstream fetch issued by `download_stock` is passed, for
its kind, the effective start computed from that kind's table in the
pre-call store; that effective start equals the stored watermark `T`
when `get_last_date` finds one — and such a `T` really is the maximum
stored timestamp for the entity, dominating the requested start — and
equals the requested start when no watermark exists (an entity with a
stored row bearing a non-empty timestamp always has a watermark). -/
theorem C4_fetch_start_is_watermark (fd fw fm : Fetcher)
    (code start end_ : String) (st : Nat) (db : DB) (k : Kind) (s : String)
    (h : Ev.fetched k s ∈ (download_stock fd fw fm code start end_ st db).2.1) :
    s = effective_start (kind_table db k) code start ∧
      (get_last_date (kind_table db k) code = none → s = start) ∧
      (∀ T, get_last_date (kind_table db k) code = some T →
        s = T ∧ (∃ r ∈ kind_table db k, r.ts_code = code ∧ r.date = T) ∧
          ∀ r ∈ kind_table db k, r.ts_code = code → str_le r.date T = true) ∧
      ((∃ r ∈ kind_table db k, r.ts_code = code ∧ r.date ≠ "") →
        ∃ T, get_last_date (kind_table db k) code = some T) := by
  have h1 : s = effective_start (kind_table db k) code start := by
    simp only [download_stock] at h
    cases hfd : fd code (effective_start db.daily code start) end_ with
    | error e =>
      rw [hfd] at h
      simp at h
      obtain ⟨rfl, rfl⟩ := h
      simp [kind_table]
    | ok df_daily =>
      rw [hfd] at h
      dsimp only at h
      cases had : append_data db.daily df_daily code with
      | error e =>
        rw [had] at h
        simp at h
        obtain ⟨rfl, rfl⟩ := h
        simp [kind_table]
      | ok p =>
        obtain ⟨daily1, n1⟩ := p
        rw [had] at h
        dsimp only at h
        cases hfw : fw code (effective_start db.weekly code start) end_ with
        | error e =>
          rw [hfw] at h
          simp at h
          rcases h with ⟨rfl, rfl⟩ | ⟨rfl, rfl⟩ <;> simp [kind_table]
        | ok df_weekly =>
          rw [hfw] at h
          dsimp only at h
          cases haw : append_data db.weekly df_weekly code with
          | error e =>
            rw [haw] at h
            simp at h
            rcases h with ⟨rfl, rfl⟩ | ⟨rfl, rfl⟩ <;> simp [kind_table]
          | ok q =>
            obtain ⟨weekly1, n2⟩ := q
            rw [haw] at h
            dsimp only at h
            cases hfm : fm code (effective_start db.minute code start) end_ with
            | error e =>
              rw [hfm] at h
              simp at h
              rcases h with ⟨rfl, rfl⟩ | ⟨rfl, rfl⟩ | ⟨rfl, rfl⟩ <;> simp [kind_table]
            | ok df_min =>
              rw [hfm] at h
              dsimp only at h
              cases ham : append_data db.minute df_min code with
              | error e =>
                rw [ham] at h
                simp at h
                rcases h with ⟨rfl, rfl⟩ | ⟨rfl, rfl⟩ | ⟨rfl, rfl⟩ <;> simp [kind_table]
              | ok w =>
                obtain ⟨minute1, n3⟩ := w
                rw [ham] at h
                simp at h
                rcases h with ⟨rfl, rfl⟩ | ⟨rfl, rfl⟩ | ⟨rfl, rfl⟩ <;> simp [kind_table]
  refine ⟨h1, ?_, ?_, ?_⟩
  · intro h0
    rw [h1]
    simp [effective_start, h0]
  · intro T hT
    have hs : s = T := by rw [h1]; simp [effective_start, hT]
    have hspec := get_last_date_spec _ _ _ hT
    exact ⟨hs, hspec.1, hspec.2⟩
  · intro hex
    exact get_last_date_isSome _ _ hex

/-- A store already holding one row per table for "sz000001" dated
"20220104". -/
def db_seeded : DB := { daily := [row0], weekly := [row0], minute := [row0] }

/-- Witness for C4: with a stored watermark "20220104" and an earlier
requested start "20200101", the daily fetch is issued with start
"20220104". -/
theorem C4_fetch_start_is_watermark_witness :
    "20220104" = effective_start (kind_table db_seeded .daily) "sz000001"
        "20200101" ∧
      (get_last_date (kind_table db_seeded .daily) "sz000001" = none →
        "20220104" = "20200101") ∧
      (∀ T, get_last_date (kind_table db_seeded .daily) "sz000001" = some T →
        ("20220104" : String) = T ∧
          (∃ r ∈ kind_table db_seeded .daily,
            r.ts_code = "sz000001" ∧ r.date = T) ∧
          ∀ r ∈ kind_table db_seeded .daily,
            r.ts_code = "sz000001" → str_le r.date T = true) ∧
      ((∃ r ∈ kind_table db_seeded .daily,
          r.ts_code = "sz000001" ∧ r.date ≠ "") →
        ∃ T, get_last_date (kind_table db_seeded .daily) "sz000001" = some T) :=
  C4_fetch_start_is_watermark f1 f1 f1 "sz000001" "20200101" "20220110" 0
    db_seeded .daily "20220104" (by decide)
/-- C8: a successful `download_stock` run performs, in this exact
order, the Daily watermark resolution, the Daily fetch from that
watermark, and the Daily write — then the same triple for Weekly —
then the same triple for Minute: kinds run strictly Daily, Weekly,
Minute, each kind's watermark is resolved before its fetch, and its
rows are written before the next kind starts. -/
theorem C8_kind_order (fd fw fm : Fetcher) (code start end_ : String)
    (st : Nat) (db : DB)
    (h : (download_stock fd fw fm code start end_ st db).2.2 = none) :
    ∃ s1 n1 s2 n2 s3 n3,
      (download_stock fd fw fm code start end_ st db).2.1 =
        [.resolved .daily s1, .fetched .daily s1, .wrote .daily n1,
         .resolved .weekly s2, .fetched .weekly s2, .wrote .weekly n2,
         .resolved .minute s3, .fetched .minute s3, .wrote .minute n3] := by
  simp only [download_stock] at h ⊢
  cases hfd : fd code (effective_start db.daily code start) end_ with
  | error e => try rw [hfd] at h
               simp at h
  | ok df_daily =>
    try rw [hfd] at h
    try rw [hfd]
    dsimp only at h ⊢
    cases had : append_data db.daily df_daily code with
    | error e => try rw [had] at h
                 simp at h
    | ok p =>
      obtain ⟨daily1, n1⟩ := p
      try rw [had] at h
      try rw [had]
      dsimp only at h ⊢
      cases hfw : fw code (effective_start db.weekly code start) end_ with
      | error e => try rw [hfw] at h
                   simp at h
      | ok df_weekly =>
        try rw [hfw] at h
        try rw [hfw]
        dsimp only at h ⊢
        cases haw : append_data db.weekly df_weekly code with
        | error e => try rw [haw] at h
                     simp at h
        | ok q =>
          obtain ⟨weekly1, n2⟩ := q
          try rw [haw] at h
          try rw [haw]
          dsimp only at h ⊢
          cases hfm : fm code (effective_start db.minute code start) end_ with
          | error e => try rw [hfm] at h
                       simp at h
          | ok df_min =>
            try rw [hfm] at h
            try rw [hfm]
            dsimp only at h ⊢
            cases ham : append_data db.minute df_min code with
            | error e => try rw [ham] at h
                         simp at h
            | ok w =>
              obtain ⟨minute1, n3⟩ := w
              try rw [ham] at h
              try rw [ham]
              dsimp only at h ⊢
              refine ⟨effective_start db.daily code start, n1,
                effective_start db.weekly code start, n2,
                effective_start db.minute code start, n3, ?_⟩
              simp

/-- Witness for C8: the event trace of a concrete successful run. -/
theorem C8_kind_order_witness :
    ∃ s1 n1 s2 n2 s3 n3,
      (download_stock f1 f1 f1 "sz000001" "20220101" "20220110" 0 db0).2.1 =
        [.resolved .daily s1, .fetched .daily s1, .wrote .daily n1,
         .resolved .weekly s2, .fetched .weekly s2, .wrote .weekly n2,
         .resolved .minute s3, .fetched .minute s3, .wrote .minute n3] :=
  C8_kind_order f1 f1 f1 "sz000001" "20220101" "20220110" 0 db0 rfl
